import Mathlib

/-
Verification of the contextmanager MCP protocol router.

The router (src/main/index.ts, primary variant; src/unnamed/part_002, the
sessions variant) forwards tool invocations to per-domain MCP servers.
We embed the router's data model and tool handlers as pure Lean functions.
External effects (the MCP transport handshake and the downstream RPC of a
domain server) are modelled by an environment record `Env`: `Env.connectOk`
says whether a connect attempt to a given domain would succeed right now,
`Env.rpc` gives the outcome of the underlying `client.callTool` (either a
returned result or a thrown exception, as `Except`), and `Env.now` stands
for `Date.now()`.  Every observable downstream interaction is recorded in
an event trace.
-/

/-- One content item of an MCP tool result: `{ type: "text", text: ... }`. -/
structure ContentItem where
  type : String
  text : String
deriving DecidableEq

/-- A tool result: `{ content: [...], isError?: bool }`.  A missing `isError`
field in the source is modelled as `false`. -/
structure ToolResult where
  content : List ContentItem
  isError : Bool := false
deriving DecidableEq

/-- One observation row of a `buildcontext` observations payload. -/
structure Obs where
  entityName : String
  contents : List String
deriving DecidableEq

/-- Arguments of a downstream (router → domain server) tool call, covering
the payload shapes the router actually sends. -/
inductive DownArgs where
  | emptyArgs : DownArgs
  | startArgsV2 (domain : String) (randomString : String) : DownArgs
  | obsArgs (observations : List Obs) : DownArgs
  | endsessionFwd (sessionId stage : String) (stageNumber totalStages : Int)
      (nextStageNeeded : Bool) (analysis : Option String) (isRevision : Option Bool)
      (revisesStage : Option Int) (stageData : Option String) : DownArgs
  | genericFwd (type : String) (dataTag : Option String) : DownArgs
  | loadFwd (entityName : String) (entityType : Option String) (sessionId : Option String) : DownArgs
  | listArgsV2 (randomString : String) : DownArgs
deriving DecidableEq

/-- An observable downstream interaction: a connect attempt (with its
outcome) or an underlying RPC invocation. -/
inductive Event where
  | connect (domain : String) (ok : Bool) : Event
  | call (domain : String) (tool : String) (args : DownArgs) : Event
deriving DecidableEq

/-- The external world for one handler invocation. -/
structure Env where
  connectOk : String → Bool
  rpc : String → String → Except String ToolResult
  now : Nat

/-- A registry entry.  The connection recipe fields (command/args resp.
host/port/path) only influence `connect()`, which is modelled by
`Env.connectOk`, so they are not repeated here. -/
structure DomainInfo where
  name : String
  description : String
  entityTypes : List String
deriving DecidableEq

/-- The static domain registry of src/main/index.ts (identical names,
descriptions and entity-type lists in all router variants). -/
def domains : List DomainInfo := [
  ⟨"developer",
   "Software development context with entities like projects, components, and tasks",
   ["project", "component", "task", "issue", "commit"]⟩,
  ⟨"project",
   "Project management context with entities like projects, tasks, and resources",
   ["project", "task", "resource", "milestone", "risk"]⟩,
  ⟨"student",
   "Educational context with entities like courses, assignments, and exams",
   ["course", "assignment", "exam", "note", "grade"]⟩,
  ⟨"qualitativeresearch",
   "Qualitative research context with entities like studies, participants, and interviews",
   ["study", "participant", "interview", "code", "theme"]⟩,
  ⟨"quantitativeresearch",
   "Quantitative research context with entities like datasets, variables, and analyses",
   ["dataset", "variable", "analysis", "model", "result"]⟩]

/-- JavaScript `toLowerCase` on the ASCII strings the router compares. -/
def lowerStr (s : String) : String := String.mk (s.data.map Char.toLower)

/-- The registry lookup used by every handler:
`domains.find(d => d.name.toLowerCase() === domain.toLowerCase())`. -/
def findDomain (domain : String) : Option DomainInfo :=
  domains.find? (fun d => lowerStr d.name == lowerStr domain)

/-- Pointwise update of the per-domain connected map. -/
def updConn (conn : String → Bool) (d : String) (v : Bool) : String → Bool :=
  fun x => if x == d then v else conn x

/-- Output of `DomainClient.connect()`: the new connected map, the returned
boolean, and the emitted trace. -/
structure ConnOut where
  conn : String → Bool
  ok : Bool
  events : List Event

/-- `DomainClient.connect()`: returns success immediately when already
connected; otherwise attempts the handshake, setting the connected flag to
the outcome, and never throws. -/
def connectDC (env : Env) (conn : String → Bool) (d : String) : ConnOut :=
  if conn d then ⟨conn, true, []⟩
  else if env.connectOk d then ⟨updConn conn d true, true, [Event.connect d true]⟩
  else ⟨updConn conn d false, false, [Event.connect d false]⟩

/-- Output of `DomainClient.callTool`. -/
structure CallOut where
  conn : String → Bool
  result : ToolResult
  events : List Event

/-- The error-as-value result `DomainClient.callTool` returns when the
implicit reconnect fails. -/
def notConnectedResult (d : String) : ToolResult :=
  ⟨[⟨"text", "Error: Not connected to domain " ++ d⟩], true⟩

/-- The error-as-value result `DomainClient.callTool` returns when the
underlying `client.callTool` throws. -/
def callToolThrowResult (tool d e : String) : ToolResult :=
  ⟨[⟨"text", "Error calling tool " ++ tool ++ " on domain " ++ d ++ ": " ++ e⟩], true⟩

/-- `DomainClient.callTool`: reconnects on demand, converts a failed
reconnect and a thrown RPC into structured error results, and never
throws itself. -/
def dcCallTool (env : Env) (conn : String → Bool) (d tool : String) (args : DownArgs) : CallOut :=
  if conn d then
    match env.rpc d tool with
    | Except.ok r => ⟨conn, r, [Event.call d tool args]⟩
    | Except.error e => ⟨conn, callToolThrowResult tool d e, [Event.call d tool args]⟩
  else
    let c := connectDC env conn d
    if c.ok then
      match env.rpc d tool with
      | Except.ok r => ⟨c.conn, r, c.events ++ [Event.call d tool args]⟩
      | Except.error e => ⟨c.conn, callToolThrowResult tool d e, c.events ++ [Event.call d tool args]⟩
    else
      ⟨c.conn, notConnectedResult d, c.events⟩

/-- Recognises connect events. -/
def isConnectEv : Event → Bool
  | Event.connect _ _ => true
  | Event.call _ _ _ => false

/-- Recognises RPC events. -/
def isCallEv : Event → Bool
  | Event.connect _ _ => false
  | Event.call _ _ _ => true

/-- Number of connect attempts in a trace. -/
def connectCount (evs : List Event) : Nat := (evs.filter isConnectEv).length

/-- Number of underlying RPC invocations in a trace. -/
def callCount (evs : List Event) : Nat := (evs.filter isCallEv).length

-- Sanity: the registry lookup is case-insensitive and string machinery reduces.
example : findDomain "Developer" = findDomain "developer" := by decide
example : (findDomain "nosuch").isNone = true := by decide
example : lowerStr "StUdEnT" = "student" := by decide

/-- A row of the primary router's Session Table (`FlowInfo` in
src/main/index.ts). -/
structure FlowInfo where
  id : String
  domain : String
  entityName : Option String := none
  entityType : Option String := none
  active : Bool
  createdAt : Nat
deriving DecidableEq

/-- The primary router's mutable state: the flow table, the active-domain
pointer, the flow counter, and every DomainClient's connected flag. -/
structure RouterState where
  flows : List FlowInfo
  activeDomain : Option String
  flowCounter : Nat
  conn : String → Bool

/-- Output of one handler invocation of the primary router. -/
structure HOut where
  state : RouterState
  result : ToolResult
  events : List Event

/-- JavaScript `Array.prototype.join(", ")` over the registry names. -/
def joinWithComma : List String → String
  | [] => ""
  | [s] => s
  | s :: rest => s ++ ", " ++ joinWithComma rest

/-- The unknown-domain error of `setActiveDomain`/`startsession`. -/
def domainNotFoundResult (domain : String) : ToolResult :=
  ⟨[⟨"text", "Error: Domain \x27" ++ domain ++ "\x27 not found. Available domains: " ++
      joinWithComma (domains.map (fun d => d.name))⟩], true⟩

/-- The connect-failure error of the router handlers. -/
def connectFailResult (domain : String) : ToolResult :=
  ⟨[⟨"text", "Error: Could not connect to domain server for \x27" ++ domain ++ "\x27"⟩], true⟩

/-- `setActiveDomain(domain)` of src/main/index.ts: case-insensitive
registry lookup, connect, set the active-domain pointer to the canonical
registry name.  (The tool-description refresh touches only tool help text,
not the state modelled here.) -/
def setActiveDomain (env : Env) (st : RouterState) (domain : String) : HOut :=
  match findDomain domain with
  | none => ⟨st, domainNotFoundResult domain, []⟩
  | some found =>
    let c := connectDC env st.conn found.name
    if c.ok then
      ⟨{ st with activeDomain := some found.name, conn := c.conn },
        ⟨[⟨"text", "Active domain set to: " ++ found.name⟩], false⟩, c.events⟩
    else
      ⟨{ st with conn := c.conn }, connectFailResult domain, c.events⟩

/-- JavaScript `text.split(' ')` (split on a single space character). -/
def splitChar (sep : Char) : List Char → List (List Char)
  | [] => [[]]
  | c :: cs =>
    match splitChar sep cs with
    | [] => [[]]
    | w :: ws => if c == sep then [] :: w :: ws else (c :: w) :: ws

/-- JavaScript `text.split(' ').pop()`: the last whitespace-separated token. -/
def lastToken (s : String) : String := String.mk ((splitChar ' ' s.data).getLastD [])

/-- The catch-branch result of the primary `startsession` handler (reached
only when `result.content[0]` is missing; the interpolated exception text is
not modelled). -/
def startErrorResult (d : String) : ToolResult :=
  ⟨[⟨"text", "Error starting session for domain " ++ d⟩], true⟩

/-- `startsession(domain)` of src/main/index.ts: lookup, connect, bump the
counter, set the active domain, forward `startsession` downstream with no
arguments, then derive the flow id from the LAST TOKEN of the response text
and append the flow row.  The response is returned without an `isError`
flag even when the downstream result was an error-as-value. -/
def startsession (env : Env) (st : RouterState) (domain : String) : HOut :=
  match findDomain domain with
  | none => ⟨st, domainNotFoundResult domain, []⟩
  | some found =>
    let c := connectDC env st.conn found.name
    if c.ok then
      let st1 : RouterState :=
        { st with activeDomain := some found.name, flowCounter := st.flowCounter + 1,
                  conn := c.conn }
      let r := dcCallTool env st1.conn found.name "startsession" DownArgs.emptyArgs
      let st2 := { st1 with conn := r.conn }
      match r.result.content with
      | [] => ⟨st2, startErrorResult found.name, c.events ++ r.events⟩
      | c0 :: _ =>
        let flowId := "flow_" ++ lastToken c0.text
        ⟨{ st2 with flows := st2.flows ++ [⟨flowId, found.name, none, none, true, env.now⟩] },
          ⟨[⟨"text", c0.text⟩], false⟩, c.events ++ r.events⟩
    else
      ⟨{ st with conn := c.conn }, connectFailResult domain, c.events⟩

/-- Arguments of the router's `endsession` tool. -/
structure EndArgs where
  sessionId : String
  stage : String
  stageNumber : Int
  totalStages : Int
  nextStageNeeded : Bool
  analysis : Option String := none
  isRevision : Option Bool := none
  revisesStage : Option Int := none
  stageData : Option String := none
deriving DecidableEq

/-- The verbatim downstream forward of the endsession staging parameters. -/
def endsessionFwdArgs (a : EndArgs) : DownArgs :=
  DownArgs.endsessionFwd a.sessionId a.stage a.stageNumber a.totalStages
    a.nextStageNeeded a.analysis a.isRevision a.revisesStage a.stageData

/-- The unknown-flow error of the primary `endsession` handler. -/
def flowNotFoundResult (flowId : String) : ToolResult :=
  ⟨[⟨"text", "Error: Context Manager flow with ID \x27" ++ flowId ++ "\x27 not found."⟩], true⟩

/-- The catch-branch result of the primary `endsession` handler. -/
def endErrorResult (d : String) : ToolResult :=
  ⟨[⟨"text", "Error ending session for domain " ++ d⟩], true⟩

/-- JavaScript `Array.prototype.findIndex` together with the element found. -/
def findWithIdx (p : FlowInfo → Bool) : List FlowInfo → Option (Nat × FlowInfo)
  | [] => none
  | x :: xs =>
    if p x then some (0, x)
    else (findWithIdx p xs).map (fun q => (q.1 + 1, q.2))

/-- `flows[flowIndex].active = false` (leaves the list unchanged when the
index is out of range, which the handler rules out). -/
def deactivateAt (l : List FlowInfo) (i : Nat) : List FlowInfo :=
  match l.get? i with
  | none => l
  | some f => l.set i { f with active := false }

/-- `endsession(...)` of src/main/index.ts: resolve `flow_<sessionId>` by id
only (the active flag is not consulted), ensure the owning domain is
connected, forward all staging parameters verbatim, and when
`nextStageNeeded` is false set the row's active flag to false. -/
def endsession (env : Env) (st : RouterState) (a : EndArgs) : HOut :=
  let flowId := "flow_" ++ a.sessionId
  match findWithIdx (fun s => s.id == flowId) st.flows with
  | none => ⟨st, flowNotFoundResult flowId, []⟩
  | some (idx, flow) =>
    let dn := flow.domain
    let c := connectDC env st.conn dn
    if c.ok then
      let r := dcCallTool env c.conn dn "endsession" (endsessionFwdArgs a)
      let stc := { st with conn := r.conn }
      if a.nextStageNeeded then
        match r.result.content with
        | [] => ⟨stc, endErrorResult dn, c.events ++ r.events⟩
        | c0 :: _ => ⟨stc, ⟨[⟨"text", c0.text⟩], false⟩, c.events ++ r.events⟩
      else
        let st2 := { stc with flows := deactivateAt stc.flows idx }
        match r.result.content with
        | [] => ⟨st2, endErrorResult dn, c.events ++ r.events⟩
        | c0 :: _ => ⟨st2, ⟨[⟨"text", c0.text⟩], false⟩, c.events ++ r.events⟩
    else
      ⟨{ st with conn := c.conn }, connectFailResult dn, c.events⟩

/-- The no-active-domain error of the context tools in src/main/index.ts. -/
def noActiveDomainResult : ToolResult :=
  ⟨[⟨"text", "Error: No active domain set. Use setActiveDomain or startsession tool first."⟩], true⟩

/-- The no-flow error of the primary `loadcontext` handler. -/
def noFlowResult : ToolResult :=
  ⟨[⟨"text", "Error: No active Context Manager flow found. Start a flow first."⟩], true⟩

/-- The catch-branch result of the primary `loadcontext` handler. -/
def loadErrorResult (d : String) : ToolResult :=
  ⟨[⟨"text", "Error loading context for domain " ++ d⟩], true⟩

/-- `loadcontext(entityName, entityType?, sessionId?)` of src/main/index.ts:
requires an active domain; picks the target flow by explicit id or else the
FIRST table row whose domain equals the active domain and which is active;
on a missing flow errors before any mutation; otherwise caches
entityName/entityType (defaulting the type to "unknown") on the row and
forwards the call. -/
def loadcontext (env : Env) (st : RouterState) (entityName : String)
    (entityType : Option String) (sessionId : Option String) : HOut :=
  match st.activeDomain with
  | none => ⟨st, noActiveDomainResult, []⟩
  | some ad =>
    let target :=
      match sessionId with
      | some sid => findWithIdx (fun s => s.id == "flow_" ++ sid) st.flows
      | none => findWithIdx (fun s => s.domain == ad && s.active) st.flows
    match target with
    | none => ⟨st, noFlowResult, []⟩
    | some (idx, flow) =>
      let c := connectDC env st.conn ad
      if c.ok then
        let updated := { flow with entityName := some entityName,
                                   entityType := some (entityType.getD "unknown") }
        let st1 := { st with conn := c.conn, flows := st.flows.set idx updated }
        let r := dcCallTool env st1.conn ad "loadcontext"
          (DownArgs.loadFwd entityName entityType sessionId)
        let st2 := { st1 with conn := r.conn }
        match r.result.content with
        | [] => ⟨st2, loadErrorResult ad, c.events ++ r.events⟩
        | c0 :: _ => ⟨st2, ⟨[⟨"text", c0.text⟩], false⟩, c.events ++ r.events⟩
      else
        ⟨{ st with conn := c.conn }, connectFailResult ad, c.events⟩

/-- The shared shape of `buildcontext`, `deletecontext` and
`advancedcontext` in src/main/index.ts: require an active domain, ensure
its connection, forward verbatim and return the downstream result as is
(error-as-value results included). -/
def forwardTool (env : Env) (st : RouterState) (tool : String) (args : DownArgs) : HOut :=
  match st.activeDomain with
  | none => ⟨st, noActiveDomainResult, []⟩
  | some ad =>
    let c := connectDC env st.conn ad
    if c.ok then
      let r := dcCallTool env c.conn ad tool args
      ⟨{ st with conn := r.conn }, r.result, c.events ++ r.events⟩
    else
      ⟨{ st with conn := c.conn }, connectFailResult ad, c.events⟩

/-- `buildcontext(type, data)` of src/main/index.ts. -/
def buildcontext (env : Env) (st : RouterState) (type : String) (dataTag : Option String) : HOut :=
  forwardTool env st "buildcontext" (DownArgs.genericFwd type dataTag)

/-- `deletecontext(type, data)` of src/main/index.ts. -/
def deletecontext (env : Env) (st : RouterState) (type : String) (dataTag : Option String) : HOut :=
  forwardTool env st "deletecontext" (DownArgs.genericFwd type dataTag)

/-- `advancedcontext(type, params)` of src/main/index.ts. -/
def advancedcontext (env : Env) (st : RouterState) (type : String) (dataTag : Option String) : HOut :=
  forwardTool env st "advancedcontext" (DownArgs.genericFwd type dataTag)

/-- The source-not-found error of `relateCrossDomain`. -/
def srcDomainNotFound (d : String) : ToolResult :=
  ⟨[⟨"text", "Error: Source domain \x27" ++ d ++ "\x27 not found."⟩], true⟩

/-- The target-not-found error of `relateCrossDomain`. -/
def tgtDomainNotFound (d : String) : ToolResult :=
  ⟨[⟨"text", "Error: Target domain \x27" ++ d ++ "\x27 not found."⟩], true⟩

/-- The outbound-relation observation text written to the source entity. -/
def relateToText (toEntity toDomainName relationType : String) : String :=
  "Related to " ++ toEntity ++ " (" ++ toDomainName ++ " domain) via " ++ relationType

/-- The inbound-relation observation text written to the target entity. -/
def relateFromText (fromEntity fromDomainName relationType : String) : String :=
  "Related from " ++ fromEntity ++ " (" ++ fromDomainName ++ " domain) via " ++ relationType

/-- `relateCrossDomain(...)` of src/main/index.ts: validate both domain
names case-insensitively, connect first the source then the target domain
(both connects precede any write), then issue the two `buildcontext`
observation appends. -/
def relateCrossDomain (env : Env) (st : RouterState)
    (fromDomain fromEntity toDomain toEntity relationType : String) : HOut :=
  match findDomain fromDomain with
  | none => ⟨st, srcDomainNotFound fromDomain, []⟩
  | some fromInfo =>
    match findDomain toDomain with
    | none => ⟨st, tgtDomainNotFound toDomain, []⟩
    | some toInfo =>
      let c1 := connectDC env st.conn fromInfo.name
      if c1.ok then
        let c2 := connectDC env c1.conn toInfo.name
        if c2.ok then
          let r1 := dcCallTool env c2.conn fromInfo.name "buildcontext"
            (DownArgs.obsArgs [⟨fromEntity, [relateToText toEntity toInfo.name relationType]⟩])
          let r2 := dcCallTool env r1.conn toInfo.name "buildcontext"
            (DownArgs.obsArgs [⟨toEntity, [relateFromText fromEntity fromInfo.name relationType]⟩])
          ⟨{ st with conn := r2.conn },
            ⟨[⟨"text", "Created cross-domain relation: " ++ fromEntity ++ " (" ++ fromDomain ++
                ") --[" ++ relationType ++ "]--> " ++ toEntity ++ " (" ++ toDomain ++ ")"⟩], false⟩,
            c1.events ++ c2.events ++ r1.events ++ r2.events⟩
        else
          ⟨{ st with conn := c2.conn }, connectFailResult toDomain, c1.events ++ c2.events⟩
      else
        ⟨{ st with conn := c1.conn }, connectFailResult fromDomain, c1.events⟩

/-- One invocation of any primary-router tool handler. -/
inductive RouterOp where
  | setActiveDomainOp (domain : String) : RouterOp
  | startsessionOp (domain : String) : RouterOp
  | endsessionOp (args : EndArgs) : RouterOp
  | buildcontextOp (type : String) (dataTag : Option String) : RouterOp
  | deletecontextOp (type : String) (dataTag : Option String) : RouterOp
  | loadcontextOp (entityName : String) (entityType : Option String)
      (sessionId : Option String) : RouterOp
  | advancedcontextOp (type : String) (dataTag : Option String) : RouterOp
  | relateCrossDomainOp (fromDomain fromEntity toDomain toEntity relationType : String) : RouterOp

/-- Dispatch of one router operation. -/
def step (env : Env) (st : RouterState) : RouterOp → HOut
  | RouterOp.setActiveDomainOp d => setActiveDomain env st d
  | RouterOp.startsessionOp d => startsession env st d
  | RouterOp.endsessionOp a => endsession env st a
  | RouterOp.buildcontextOp t dt => buildcontext env st t dt
  | RouterOp.deletecontextOp t dt => deletecontext env st t dt
  | RouterOp.loadcontextOp en et sid => loadcontext env st en et sid
  | RouterOp.advancedcontextOp t dt => advancedcontext env st t dt
  | RouterOp.relateCrossDomainOp fd fe td te rt => relateCrossDomain env st fd fe td te rt

/-- Decimal digit characters of a natural number (fuel-driven; `fuel = n+1`
always suffices).  Models the JavaScript number-to-string conversion inside
template literals. -/
def natToCharsF : Nat → Nat → List Char
  | 0, _ => []
  | fuel + 1, n =>
    if n < 10 then [Nat.digitChar n]
    else natToCharsF fuel (n / 10) ++ [Nat.digitChar (n % 10)]

/-- Decimal rendering of a natural number, as interpolated by `${...}`. -/
def natToString (n : Nat) : String := String.mk (natToCharsF (n + 1) n)

-- Sanity: the rendering agrees with the usual decimal notation.
example : natToString 0 = "0" := by decide
example : natToString 1742 = "1742" := by decide

/-- A row of the sessions-variant router's Session Table (`SessionInfo` in
src/unnamed/part_002). -/
structure SessionInfo where
  id : String
  domain : String
  entityName : Option String := none
  entityType : Option String := none
  active : Bool
  createdAt : Nat
deriving DecidableEq

/-- The sessions-variant router's mutable state. -/
structure V2State where
  sessions : List SessionInfo
  activeDomain : Option String
  sessionCounter : Nat
  conn : String → Bool

/-- Output of one handler invocation of the sessions-variant router. -/
structure V2HOut where
  state : V2State
  result : ToolResult
  events : List Event

/-- The router-local session identifier of src/unnamed/part_002:
`cm_session_<domain>_<counter>_<timestamp>`. -/
def mkCmSessionId (domain : String) (counter ts : Nat) : String :=
  "cm_session_" ++ domain ++ "_" ++ natToString counter ++ "_" ++ natToString ts

/-- The catch-branch result of the variant `startsession` handler. -/
def v2StartErrorResult (d : String) : ToolResult :=
  ⟨[⟨"text", "Error starting session for domain " ++ d⟩], true⟩

/-- `startsession(domain)` of src/unnamed/part_002: lookup, connect, bump
the counter, mint `cm_session_<domain>_<counter>_<ts>`, append the session
row (BEFORE forwarding), then forward `startsession` downstream and report
both the downstream text and the new id. -/
def v2Startsession (env : Env) (st : V2State) (domain : String) : V2HOut :=
  match findDomain domain with
  | none => ⟨st, domainNotFoundResult domain, []⟩
  | some found =>
    let c := connectDC env st.conn found.name
    if c.ok then
      let counter1 := st.sessionCounter + 1
      let cmSessionId := mkCmSessionId found.name counter1 env.now
      let st1 : V2State :=
        { st with activeDomain := some found.name, sessionCounter := counter1, conn := c.conn,
                  sessions := st.sessions ++
                    [⟨cmSessionId, found.name, none, none, true, env.now⟩] }
      let r := dcCallTool env st1.conn found.name "startsession"
        (DownArgs.startArgsV2 found.name
          (found.name ++ "_session_from_cm_" ++ natToString env.now))
      let st2 := { st1 with conn := r.conn }
      match r.result.content with
      | [] => ⟨st2, v2StartErrorResult found.name, c.events ++ r.events⟩
      | c0 :: _ =>
        ⟨st2,
          ⟨[⟨"text", c0.text ++ "\n\nNew Context Manager session started with session ID: " ++
              cmSessionId⟩], false⟩,
          c.events ++ r.events⟩
    else
      ⟨{ st with conn := c.conn }, connectFailResult domain, c.events⟩

/-- The no-active-domain error of the sessions-variant tools. -/
def v2NoActiveDomainResult : ToolResult :=
  ⟨[⟨"text", "Error: No active domain set. Use setActiveDomain tool first."⟩], true⟩

/-- The registry-fallback text the variant `listAllEntities` handler is
documented to produce when the domain server lacks the tool. -/
def entityTypesFallbackText (ad : String) (d : DomainInfo) : String :=
  "Available entity types in " ++ ad ++ " domain: " ++ joinWithComma d.entityTypes

/-- `listAllEntities()` of src/unnamed/part_002: requires an active domain,
ensures its connection and forwards.  The source wraps the forward in a
try/catch whose catch falls back to the registry entity-type list — but
`DomainClient.callTool` never throws (it converts both a failed reconnect
and a thrown RPC into error-as-value results), so the catch branch is
unreachable and the handler returns `callTool`'s result verbatim. -/
def v2ListAllEntities (env : Env) (st : V2State) : V2HOut :=
  match st.activeDomain with
  | none => ⟨st, v2NoActiveDomainResult, []⟩
  | some ad =>
    let c := connectDC env st.conn ad
    if c.ok then
      let r := dcCallTool env c.conn ad "listAllEntities"
        (DownArgs.listArgsV2 ("from_context_manager_" ++ natToString env.now))
      ⟨{ st with conn := r.conn }, r.result, c.events ++ r.events⟩
    else
      ⟨{ st with conn := c.conn }, connectFailResult ad, c.events⟩

/-- Decodes a list of decimal digit characters back to the number. -/
def charsToNat (l : List Char) : Nat := l.foldl (fun a c => 10 * a + (c.toNat - 48)) 0

lemma digitChar_toNat_of_lt : ∀ n < 10, (Nat.digitChar n).toNat = 48 + n := by decide

lemma digitChar_ne_underscore : ∀ n < 10, Nat.digitChar n ≠ '_' := by decide

lemma charsToNat_append_singleton (l : List Char) (c : Char) :
    charsToNat (l ++ [c]) = 10 * charsToNat l + (c.toNat - 48) := by
  simp [charsToNat, List.foldl_append]

lemma natToCharsF_spec : ∀ fuel n, n < 10 ^ fuel → charsToNat (natToCharsF fuel n) = n := by
  intro fuel
  induction fuel with
  | zero =>
    intro n h
    simp only [pow_zero, Nat.lt_one_iff] at h
    subst h
    rfl
  | succ fuel ih =>
    intro n h
    by_cases h10 : n < 10
    · have hd := digitChar_toNat_of_lt n h10
      simp [natToCharsF, h10, charsToNat, hd]
    · have hdiv : n / 10 < 10 ^ fuel := by
        have hp : (10 : Nat) ^ (fuel + 1) = 10 ^ fuel * 10 := pow_succ 10 fuel
        rw [hp] at h
        omega
      have hmod := digitChar_toNat_of_lt (n % 10) (Nat.mod_lt n (by omega))
      simp only [natToCharsF, h10, if_false]
      rw [charsToNat_append_singleton, ih (n / 10) hdiv, hmod]
      omega

lemma natToString_inj {m n : Nat} (h : natToString m = natToString n) : m = n := by
  have hdata : natToCharsF (m + 1) m = natToCharsF (n + 1) n := congrArg String.data h
  have hm : m < 10 ^ (m + 1) :=
    lt_of_lt_of_le (Nat.lt_pow_self (by omega) m) (Nat.pow_le_pow_right (by omega) (Nat.le_succ m))
  have hn : n < 10 ^ (n + 1) :=
    lt_of_lt_of_le (Nat.lt_pow_self (by omega) n) (Nat.pow_le_pow_right (by omega) (Nat.le_succ n))
  calc m = charsToNat (natToCharsF (m + 1) m) := (natToCharsF_spec (m + 1) m hm).symm
    _ = charsToNat (natToCharsF (n + 1) n) := by rw [hdata]
    _ = n := natToCharsF_spec (n + 1) n hn

lemma natToCharsF_no_underscore : ∀ fuel n, '_' ∉ natToCharsF fuel n := by
  intro fuel
  induction fuel with
  | zero => intro n; simp [natToCharsF]
  | succ fuel ih =>
    intro n
    by_cases h10 : n < 10
    · simp only [natToCharsF, h10, if_true, List.mem_singleton]
      exact fun hu => digitChar_ne_underscore n h10 hu.symm
    · simp only [natToCharsF, h10, if_false, List.mem_append, List.mem_singleton]
      rintro (hmem | heq)
      · exact ih (n / 10) hmem
      · exact digitChar_ne_underscore (n % 10) (Nat.mod_lt n (by omega)) heq.symm

lemma takeWhile_append_all {α} (p : α → Bool) (l1 l2 : List α) (h : ∀ a ∈ l1, p a = true) :
    (l1 ++ l2).takeWhile p = l1 ++ l2.takeWhile p := by
  induction l1 with
  | nil => simp
  | cons x xs ih =>
    have hx := h x (List.mem_cons_self x xs)
    simp only [List.cons_append, List.takeWhile_cons, hx, if_true, List.cons.injEq, true_and]
    exact ih (fun a ha => h a (List.mem_cons_of_mem x ha))

lemma dropWhile_append_all {α} (p : α → Bool) (l1 l2 : List α) (h : ∀ a ∈ l1, p a = true) :
    (l1 ++ l2).dropWhile p = l2.dropWhile p := by
  induction l1 with
  | nil => simp
  | cons x xs ih =>
    have hx := h x (List.mem_cons_self x xs)
    simp only [List.cons_append, List.dropWhile_cons, hx, if_true]
    exact ih (fun a ha => h a (List.mem_cons_of_mem x ha))

/-- The characters after the last underscore. -/
def lastSeg (l : List Char) : List Char :=
  ((l.reverse).takeWhile (fun c => c != '_')).reverse

/-- The characters before the last underscore. -/
def dropLastSeg (l : List Char) : List Char :=
  (((l.reverse).dropWhile (fun c => c != '_')).drop 1).reverse

lemma mem_reverse_ne_underscore {B : List Char} (hB : '_' ∉ B) :
    ∀ a ∈ B.reverse, (a != '_') = true := by
  intro a ha
  have : a ∈ B := List.mem_reverse.mp ha
  simp only [bne_iff_ne, ne_eq]
  exact fun he => hB (he ▸ this)

lemma lastSeg_append (A B : List Char) (hB : '_' ∉ B) : lastSeg (A ++ '_' :: B) = B := by
  unfold lastSeg
  have hrev : (A ++ '_' :: B).reverse = B.reverse ++ '_' :: A.reverse := by
    simp [List.reverse_append]
  rw [hrev, takeWhile_append_all _ _ _ (mem_reverse_ne_underscore hB)]
  simp [List.takeWhile_cons]

lemma dropLastSeg_append (A B : List Char) (hB : '_' ∉ B) : dropLastSeg (A ++ '_' :: B) = A := by
  unfold dropLastSeg
  have hrev : (A ++ '_' :: B).reverse = B.reverse ++ '_' :: A.reverse := by
    simp [List.reverse_append]
  rw [hrev, dropWhile_append_all _ _ _ (mem_reverse_ne_underscore hB)]
  simp [List.dropWhile_cons]

lemma strData_append (a b : String) : (a ++ b).data = a.data ++ b.data := by
  cases a
  cases b
  rfl

/-- The counter component of a `cm_session_...` identifier. -/
def counterSeg (s : String) : List Char := lastSeg (dropLastSeg s.data)

lemma mkCmSessionId_data (d : String) (c t : Nat) :
    (mkCmSessionId d c t).data =
      (("cm_session_".data ++ d.data) ++ '_' :: natToCharsF (c + 1) c) ++
        '_' :: natToCharsF (t + 1) t := by
  simp only [mkCmSessionId, natToString, strData_append]
  have hu : "_".data = ['_'] := rfl
  simp [hu, List.append_assoc]

lemma counterSeg_mkCmSessionId (d : String) (c t : Nat) :
    counterSeg (mkCmSessionId d c t) = natToCharsF (c + 1) c := by
  unfold counterSeg
  rw [mkCmSessionId_data,
    dropLastSeg_append _ _ (natToCharsF_no_underscore (t + 1) t),
    lastSeg_append _ _ (natToCharsF_no_underscore (c + 1) c)]

/-- Distinct counter values yield distinct `cm_session_...` identifiers,
whatever the domain names and timestamps. -/
lemma mkCmSessionId_inj_counter {d1 d2 : String} {c1 c2 t1 t2 : Nat}
    (h : mkCmSessionId d1 c1 t1 = mkCmSessionId d2 c2 t2) : c1 = c2 := by
  have h2 : counterSeg (mkCmSessionId d1 c1 t1) = counterSeg (mkCmSessionId d2 c2 t2) := by
    rw [h]
  rw [counterSeg_mkCmSessionId, counterSeg_mkCmSessionId] at h2
  exact natToString_inj (congrArg String.mk h2)

lemma findWithIdx_get? {p : FlowInfo → Bool} :
    ∀ {l : List FlowInfo} {i : Nat} {f : FlowInfo},
      findWithIdx p l = some (i, f) → l.get? i = some f ∧ p f = true := by
  intro l
  induction l with
  | nil => intro i f h; simp [findWithIdx] at h
  | cons x xs ih =>
    intro i f h
    simp only [findWithIdx] at h
    cases hx : p x with
    | true =>
      rw [hx, if_pos rfl] at h
      obtain ⟨hi, hf⟩ := Prod.mk.injEq .. ▸ Option.some.inj h
      subst hi
      subst hf
      exact ⟨rfl, hx⟩
    | false =>
      rw [hx] at h
      simp only [Bool.false_eq_true, if_false] at h
      cases hj : findWithIdx p xs with
      | none => rw [hj] at h; simp at h
      | some q =>
        obtain ⟨i0, f0⟩ := q
        rw [hj, Option.map_some'] at h
        obtain ⟨hi, hf⟩ := Prod.mk.injEq .. ▸ Option.some.inj h
        subst hf
        obtain ⟨hget, hp⟩ := ih hj
        subst hi
        exact ⟨hget, hp⟩

lemma findWithIdx_eq_find? (p : FlowInfo → Bool) :
    ∀ l : List FlowInfo, (findWithIdx p l).map Prod.snd = l.find? p := by
  intro l
  induction l with
  | nil => rfl
  | cons x xs ih =>
    simp only [findWithIdx, List.find?_cons]
    cases hx : p x with
    | true => rw [if_pos rfl, Option.map_some']
    | false =>
      simp only [Bool.false_eq_true, if_false]
      rw [← ih, Option.map_map]
      rfl

lemma findWithIdx_set {p : FlowInfo → Bool} :
    ∀ {l : List FlowInfo} {i : Nat} {f : FlowInfo} (g : FlowInfo),
      findWithIdx p l = some (i, f) → p g = true →
      findWithIdx p (l.set i g) = some (i, g) := by
  intro l
  induction l with
  | nil => intro i f g h _; simp [findWithIdx] at h
  | cons x xs ih =>
    intro i f g h hg
    simp only [findWithIdx] at h
    cases hx : p x with
    | true =>
      rw [hx, if_pos rfl] at h
      obtain ⟨hi, _⟩ := Prod.mk.injEq .. ▸ Option.some.inj h
      subst hi
      simp only [List.set]
      simp [findWithIdx, hg]
    | false =>
      rw [hx] at h
      simp only [Bool.false_eq_true, if_false] at h
      cases hj : findWithIdx p xs with
      | none => rw [hj] at h; simp at h
      | some q =>
        obtain ⟨i0, f0⟩ := q
        rw [hj, Option.map_some'] at h
        obtain ⟨hi, _⟩ := Prod.mk.injEq .. ▸ Option.some.inj h
        subst hi
        simp only [List.set]
        simp [findWithIdx, hx, ih g hj hg]

/-- The immutable skeleton of a Session-Table row: its id, owning domain
and creation time. -/
def rowSkeletonEq (a b : FlowInfo) : Prop :=
  a.id = b.id ∧ a.domain = b.domain ∧ a.createdAt = b.createdAt

/-- Rows are never removed and their skeleton never changes: the old table
is a pointwise-skeleton-preserved prefix of the new one. -/
def rowsPreserved (old new : List FlowInfo) : Prop :=
  old.length ≤ new.length ∧
  ∀ i f g, old.get? i = some f → new.get? i = some g → rowSkeletonEq f g

lemma rowsPreserved_refl (l : List FlowInfo) : rowsPreserved l l := by
  refine ⟨le_refl _, fun i f g hf hg => ?_⟩
  rw [hf] at hg
  cases hg
  exact ⟨rfl, rfl, rfl⟩

lemma rowsPreserved_append (l t : List FlowInfo) : rowsPreserved l (l ++ t) := by
  refine ⟨by simp, fun i f g hf hg => ?_⟩
  have hi : i < l.length := (List.get?_eq_some.mp hf).1
  rw [List.get?_append hi, hf] at hg
  cases hg
  exact ⟨rfl, rfl, rfl⟩

lemma rowsPreserved_set {l : List FlowInfo} {i : Nat} {f : FlowInfo} (g : FlowInfo)
    (hget : l.get? i = some f) (hsk : rowSkeletonEq f g) : rowsPreserved l (l.set i g) := by
  refine ⟨by simp, fun j a b ha hb => ?_⟩
  rw [List.get?_set] at hb
  by_cases hij : i = j
  · rw [if_pos hij] at hb
    subst hij
    rw [ha] at hb
    rw [hget] at ha
    cases Option.some.inj ha
    simp only [Option.map_eq_map, Option.map_some'] at hb
    cases Option.some.inj hb
    exact hsk
  · rw [if_neg hij, ha] at hb
    cases Option.some.inj hb
    exact ⟨rfl, rfl, rfl⟩

lemma rowsPreserved_deactivateAt (l : List FlowInfo) (i : Nat) :
    rowsPreserved l (deactivateAt l i) := by
  unfold deactivateAt
  cases hget : l.get? i with
  | none => exact rowsPreserved_refl l
  | some f => exact rowsPreserved_set _ hget ⟨rfl, rfl, rfl⟩

lemma connectDC_ok_of (env : Env) (conn : String → Bool) (d : String)
    (h : conn d = true ∨ env.connectOk d = true) :
    (connectDC env conn d).ok = true ∧ (connectDC env conn d).conn d = true := by
  unfold connectDC
  rcases h with h | h
  · simp [h]
  · cases hc : conn d with
    | true => simp [hc]
    | false => simp [h, updConn]

lemma connectDC_fail (env : Env) (conn : String → Bool) (d : String)
    (h1 : conn d = false) (h2 : env.connectOk d = false) :
    (connectDC env conn d).ok = false := by
  simp [connectDC, h1, h2]

lemma connectDC_conn_other (env : Env) (conn : String → Bool) (d x : String)
    (hne : x ≠ d) : (connectDC env conn d).conn x = conn x := by
  unfold connectDC
  cases hc : conn d with
  | true => simp
  | false =>
    cases hok : env.connectOk d with
    | true => simp [updConn, hne]
    | false => simp [updConn, hne]

lemma connectDC_ok_conn_mono (env : Env) (conn : String → Bool) (d x : String)
    (hok : (connectDC env conn d).ok = true) (hx : conn x = true) :
    (connectDC env conn d).conn x = true := by
  unfold connectDC at hok ⊢
  cases hc : conn d with
  | true => simpa using hx
  | false =>
    cases ho : env.connectOk d with
    | true =>
      simp only [ho, Bool.false_eq_true, if_false, if_true]
      simp [updConn, hx]
    | false => simp [hc, ho] at hok

lemma connectDC_call_filter (env : Env) (conn : String → Bool) (d : String) :
    (connectDC env conn d).events.filter isCallEv = [] := by
  unfold connectDC
  cases hc : conn d with
  | true => rfl
  | false =>
    cases ho : env.connectOk d with
    | true => simp [isCallEv]
    | false => simp [isCallEv]

/-- C1: `DomainClient.callTool` invoked while disconnected attempts
`connect()` exactly once, and that attempt precedes any RPC; if the connect
fails it returns the structured not-connected error (isError set) and the
underlying RPC is never invoked; if the connect succeeds and the RPC
throws, or if an already-connected call throws, the exception is converted
to the structured call-error result instead of propagating. -/
theorem dcCallTool_reconnect_contract (env : Env) (conn : String → Bool) (d tool : String)
    (args : DownArgs) (hnc : conn d = false) :
    connectCount (dcCallTool env conn d tool args).events = 1
    ∧ (dcCallTool env conn d tool args).events.head? = some (Event.connect d (env.connectOk d))
    ∧ (env.connectOk d = false →
        (dcCallTool env conn d tool args).result = notConnectedResult d
        ∧ (dcCallTool env conn d tool args).result.isError = true
        ∧ callCount (dcCallTool env conn d tool args).events = 0)
    ∧ (env.connectOk d = true → ∀ e, env.rpc d tool = Except.error e →
        (dcCallTool env conn d tool args).result = callToolThrowResult tool d e
        ∧ (dcCallTool env conn d tool args).result.isError = true)
    ∧ (∀ conn2 : String → Bool, conn2 d = true → ∀ e, env.rpc d tool = Except.error e →
        (dcCallTool env conn2 d tool args).result = callToolThrowResult tool d e
        ∧ (dcCallTool env conn2 d tool args).result.isError = true
        ∧ connectCount (dcCallTool env conn2 d tool args).events = 0) := by
  refine ⟨?_, ?_, ?_, ?_, ?_⟩
  · cases hok : env.connectOk d with
    | true =>
      cases hr : env.rpc d tool with
      | ok r => simp [dcCallTool, connectDC, hnc, hok, hr, connectCount, isConnectEv]
      | error e => simp [dcCallTool, connectDC, hnc, hok, hr, connectCount, isConnectEv]
    | false => simp [dcCallTool, connectDC, hnc, hok, connectCount, isConnectEv]
  · cases hok : env.connectOk d with
    | true =>
      cases hr : env.rpc d tool with
      | ok r => simp [dcCallTool, connectDC, hnc, hok, hr]
      | error e => simp [dcCallTool, connectDC, hnc, hok, hr]
    | false => simp [dcCallTool, connectDC, hnc, hok]
  · intro hok
    simp [dcCallTool, connectDC, hnc, hok, callCount, isCallEv, notConnectedResult]
  · intro hok e hr
    simp [dcCallTool, connectDC, hnc, hok, hr, callToolThrowResult]
  · intro conn2 h2 e hr
    simp [dcCallTool, h2, hr, connectCount, isConnectEv, callToolThrowResult]

/-- C1 witness: a disconnected client with a failing connect attempt. -/
theorem dcCallTool_reconnect_contract_witness :
    ((fun _ : String => false) "developer" = false)
    ∧ connectCount (dcCallTool ⟨fun _ => false, fun _ _ => Except.error "boom", 0⟩
        (fun _ => false) "developer" "buildcontext" DownArgs.emptyArgs).events = 1 := by
  refine ⟨rfl, ?_⟩
  exact (dcCallTool_reconnect_contract ⟨fun _ => false, fun _ _ => Except.error "boom", 0⟩
    (fun _ => false) "developer" "buildcontext" DownArgs.emptyArgs rfl).1

/-- C3: for a domain name that matches no registry entry (compared
case-insensitively), `setActiveDomain`, `startsession` and
`relateCrossDomain` (on either side) return an error result and leave the
router state — ActiveDomain and the Session Table included — exactly as it
was. -/
theorem unknown_domain_rejected (env : Env) (st : RouterState) (x : String)
    (hx : ∀ di ∈ domains, (lowerStr di.name == lowerStr x) = false) :
    setActiveDomain env st x = ⟨st, domainNotFoundResult x, []⟩
    ∧ (domainNotFoundResult x).isError = true
    ∧ startsession env st x = ⟨st, domainNotFoundResult x, []⟩
    ∧ (∀ fe td te rt, relateCrossDomain env st x fe td te rt = ⟨st, srcDomainNotFound x, []⟩)
    ∧ (srcDomainNotFound x).isError = true
    ∧ (∀ fd fe te rt, (relateCrossDomain env st fd fe x te rt).state = st
        ∧ (relateCrossDomain env st fd fe x te rt).result.isError = true) := by
  have hfind : findDomain x = none := by
    apply List.find?_eq_none.mpr
    intro d hd
    simp [hx d hd]
  refine ⟨?_, rfl, ?_, ?_, rfl, ?_⟩
  · simp [setActiveDomain, hfind]
  · simp [startsession, hfind]
  · intro fe td te rt
    simp [relateCrossDomain, hfind]
  · intro fd fe te rt
    cases hff : findDomain fd with
    | none => simp [relateCrossDomain, hff, srcDomainNotFound]
    | some fi => simp [relateCrossDomain, hff, hfind, tgtDomainNotFound]

/-- C3 witness: the name "nosuchdomain" is not in the registry. -/
theorem unknown_domain_rejected_witness :
    (∀ di ∈ domains, (lowerStr di.name == lowerStr "nosuchdomain") = false)
    ∧ (setActiveDomain ⟨fun _ => true, fun _ _ => Except.ok ⟨[], false⟩, 0⟩
        ⟨[], none, 0, fun _ => false⟩ "nosuchdomain").result.isError = true := by
  have h : ∀ di ∈ domains, (lowerStr di.name == lowerStr "nosuchdomain") = false := by decide
  refine ⟨h, ?_⟩
  rw [(unknown_domain_rejected ⟨fun _ => true, fun _ _ => Except.ok ⟨[], false⟩, 0⟩
    ⟨[], none, 0, fun _ => false⟩ "nosuchdomain" h).1]
  rfl

/-- C8: `setActiveDomain` is case-insensitive and canonicalising: two
argument spellings with the same lower-casing produce the same lookup, the
same resulting state and the same error flag, and a successful call sets
ActiveDomain to the registry entry's canonical-cased name (the entry being
a registry member), with identical success responses. -/
theorem setActiveDomain_case_insensitive (env : Env) (st : RouterState) (s1 s2 : String)
    (h : lowerStr s1 = lowerStr s2) :
    findDomain s1 = findDomain s2
    ∧ (setActiveDomain env st s1).state = (setActiveDomain env st s2).state
    ∧ (setActiveDomain env st s1).result.isError = (setActiveDomain env st s2).result.isError
    ∧ ∀ d, findDomain s1 = some d →
        d ∈ domains
        ∧ ((setActiveDomain env st s1).result.isError = false →
            (setActiveDomain env st s1).state.activeDomain = some d.name
            ∧ (setActiveDomain env st s1).result = (setActiveDomain env st s2).result) := by
  have hf : findDomain s1 = findDomain s2 := by
    unfold findDomain
    congr 1
    funext d
    rw [h]
  refine ⟨hf, ?_, ?_, ?_⟩
  · cases hd : findDomain s1 with
    | none =>
      have hd2 : findDomain s2 = none := hf.symm.trans hd
      simp [setActiveDomain, hd, hd2]
    | some d =>
      have hd2 : findDomain s2 = some d := hf.symm.trans hd
      cases hc : (connectDC env st.conn d.name).ok with
      | true => simp [setActiveDomain, hd, hd2, hc]
      | false => simp [setActiveDomain, hd, hd2, hc]
  · cases hd : findDomain s1 with
    | none =>
      have hd2 : findDomain s2 = none := hf.symm.trans hd
      simp [setActiveDomain, hd, hd2, domainNotFoundResult]
    | some d =>
      have hd2 : findDomain s2 = some d := hf.symm.trans hd
      cases hc : (connectDC env st.conn d.name).ok with
      | true => simp [setActiveDomain, hd, hd2, hc]
      | false => simp [setActiveDomain, hd, hd2, hc, connectFailResult]
  · intro d hd
    have hd2 : findDomain s2 = some d := hf.symm.trans hd
    have hmem : d ∈ domains := List.mem_of_find?_eq_some hd
    refine ⟨hmem, fun hsucc => ?_⟩
    cases hc : (connectDC env st.conn d.name).ok with
    | true =>
      constructor
      · simp [setActiveDomain, hd, hc]
      · simp [setActiveDomain, hd, hd2, hc]
    | false =>
      exfalso
      simp [setActiveDomain, hd, hc, connectFailResult] at hsucc

/-- C8 witness: "Developer" and "developer" both set the canonical name. -/
theorem setActiveDomain_case_insensitive_witness :
    lowerStr "Developer" = lowerStr "developer"
    ∧ (setActiveDomain ⟨fun _ => true, fun _ _ => Except.ok ⟨[], false⟩, 0⟩
        ⟨[], none, 0, fun _ => false⟩ "Developer").state.activeDomain = some "developer" := by
  refine ⟨by decide, ?_⟩
  have h := (setActiveDomain_case_insensitive ⟨fun _ => true, fun _ _ => Except.ok ⟨[], false⟩, 0⟩
    ⟨[], none, 0, fun _ => false⟩ "Developer" "developer" (by decide)).2.2.2
    ⟨"developer",
     "Software development context with entities like projects, components, and tasks",
     ["project", "component", "task", "issue", "commit"]⟩ (by decide)
  exact (h.2 (by decide)).1

lemma endsession_events_shape (env : Env) (st : RouterState) (a : EndArgs)
    (idx : Nat) (flow : FlowInfo)
    (hfind : findWithIdx (fun s => s.id == "flow_" ++ a.sessionId) st.flows = some (idx, flow))
    (hok : (connectDC env st.conn flow.domain).ok = true)
    (hcd2 : (connectDC env st.conn flow.domain).conn flow.domain = true) :
    (endsession env st a).events = (connectDC env st.conn flow.domain).events ++
      [Event.call flow.domain "endsession" (endsessionFwdArgs a)] := by
  cases hr : env.rpc flow.domain "endsession" with
  | ok r =>
    cases hns : a.nextStageNeeded with
    | true =>
      cases hct : r.content with
      | nil => simp [endsession, hfind, hok, hcd2, dcCallTool, hr, hns, hct]
      | cons c0 rest => simp [endsession, hfind, hok, hcd2, dcCallTool, hr, hns, hct]
    | false =>
      cases hct : r.content with
      | nil => simp [endsession, hfind, hok, hcd2, dcCallTool, hr, hns, hct]
      | cons c0 rest => simp [endsession, hfind, hok, hcd2, dcCallTool, hr, hns, hct]
  | error e =>
    cases hns : a.nextStageNeeded with
    | true => simp [endsession, hfind, hok, hcd2, dcCallTool, hr, hns, callToolThrowResult]
    | false => simp [endsession, hfind, hok, hcd2, dcCallTool, hr, hns, callToolThrowResult]

lemma endsession_flows_deactivate (env : Env) (st : RouterState) (a : EndArgs)
    (idx : Nat) (flow : FlowInfo)
    (hfind : findWithIdx (fun s => s.id == "flow_" ++ a.sessionId) st.flows = some (idx, flow))
    (hok : (connectDC env st.conn flow.domain).ok = true)
    (hcd2 : (connectDC env st.conn flow.domain).conn flow.domain = true)
    (hns : a.nextStageNeeded = false) :
    (endsession env st a).state.flows = deactivateAt st.flows idx := by
  cases hr : env.rpc flow.domain "endsession" with
  | ok r =>
    cases hct : r.content with
    | nil => simp [endsession, hfind, hok, hcd2, dcCallTool, hr, hns, hct]
    | cons c0 rest => simp [endsession, hfind, hok, hcd2, dcCallTool, hr, hns, hct]
  | error e => simp [endsession, hfind, hok, hcd2, dcCallTool, hr, hns, callToolThrowResult]

lemma endsession_conn_true (env : Env) (st : RouterState) (a : EndArgs)
    (idx : Nat) (flow : FlowInfo)
    (hfind : findWithIdx (fun s => s.id == "flow_" ++ a.sessionId) st.flows = some (idx, flow))
    (hok : (connectDC env st.conn flow.domain).ok = true)
    (hcd2 : (connectDC env st.conn flow.domain).conn flow.domain = true) :
    (endsession env st a).state.conn flow.domain = true := by
  cases hr : env.rpc flow.domain "endsession" with
  | ok r =>
    cases hns : a.nextStageNeeded with
    | true =>
      cases hct : r.content with
      | nil => simp [endsession, hfind, hok, hcd2, dcCallTool, hr, hns, hct]
      | cons c0 rest => simp [endsession, hfind, hok, hcd2, dcCallTool, hr, hns, hct]
    | false =>
      cases hct : r.content with
      | nil => simp [endsession, hfind, hok, hcd2, dcCallTool, hr, hns, hct]
      | cons c0 rest => simp [endsession, hfind, hok, hcd2, dcCallTool, hr, hns, hct]
  | error e =>
    cases hns : a.nextStageNeeded with
    | true => simp [endsession, hfind, hok, hcd2, dcCallTool, hr, hns, callToolThrowResult]
    | false => simp [endsession, hfind, hok, hcd2, dcCallTool, hr, hns, callToolThrowResult]

/-- C4: when `flow_<sessionId>` resolves to a table row (by id only, with
no requirement on the active flag) and the owning domain is reachable, the
staging parameters are forwarded to that domain; with `nextStageNeeded =
false` and a successful downstream forward the row's active flag becomes
false, and a subsequent `endsession` with the same id still finds the now
inactive row at the same index and forwards to the owning domain again;
an id resolving to no row yields the structured not-found error. -/
theorem endsession_contract (env : Env) (st : RouterState) (a : EndArgs)
    (idx : Nat) (flow : FlowInfo)
    (hfind : findWithIdx (fun s => s.id == "flow_" ++ a.sessionId) st.flows = some (idx, flow))
    (hconn : st.conn flow.domain = true ∨ env.connectOk flow.domain = true) :
    (∃ pre, (endsession env st a).events =
        pre ++ [Event.call flow.domain "endsession" (endsessionFwdArgs a)])
    ∧ (a.nextStageNeeded = false → ∀ r, env.rpc flow.domain "endsession" = Except.ok r →
        (endsession env st a).state.flows = st.flows.set idx { flow with active := false }
        ∧ ((endsession env st a).state.flows.get? idx).map (fun f => f.active) = some false
        ∧ findWithIdx (fun s => s.id == "flow_" ++ a.sessionId) (endsession env st a).state.flows
            = some (idx, { flow with active := false })
        ∧ ∀ a2 : EndArgs, a2.sessionId = a.sessionId →
            ∃ pre2, (endsession env (endsession env st a).state a2).events =
              pre2 ++ [Event.call flow.domain "endsession" (endsessionFwdArgs a2)])
    ∧ (∀ (st2 : RouterState) (a2 : EndArgs),
        findWithIdx (fun s => s.id == "flow_" ++ a2.sessionId) st2.flows = none →
        endsession env st2 a2 = ⟨st2, flowNotFoundResult ("flow_" ++ a2.sessionId), []⟩
        ∧ (flowNotFoundResult ("flow_" ++ a2.sessionId)).isError = true) := by
  obtain ⟨hok, hcd2⟩ := connectDC_ok_of env st.conn flow.domain hconn
  obtain ⟨hget, hp⟩ := findWithIdx_get? hfind
  refine ⟨?_, ?_, ?_⟩
  · exact ⟨(connectDC env st.conn flow.domain).events,
      endsession_events_shape env st a idx flow hfind hok hcd2⟩
  · intro hns r hr
    have hflows : (endsession env st a).state.flows = st.flows.set idx { flow with active := false } := by
      rw [endsession_flows_deactivate env st a idx flow hfind hok hcd2 hns]
      unfold deactivateAt
      rw [hget]
    have hfind2 : findWithIdx (fun s => s.id == "flow_" ++ a.sessionId)
        (endsession env st a).state.flows = some (idx, { flow with active := false }) := by
      rw [hflows]
      exact findWithIdx_set _ hfind hp
    refine ⟨hflows, ?_, hfind2, ?_⟩
    · rw [hflows, List.get?_set]
      have hlt : idx < st.flows.length := (List.get?_eq_some.mp hget).1
      rw [if_pos rfl, hget]
      rfl
    · intro a2 ha2
      have hfind3 : findWithIdx (fun s => s.id == "flow_" ++ a2.sessionId)
          (endsession env st a).state.flows = some (idx, { flow with active := false }) := by
        rw [ha2]
        exact hfind2
      have hconn2 : (endsession env st a).state.conn flow.domain = true :=
        endsession_conn_true env st a idx flow hfind hok hcd2
      obtain ⟨hok3, hcd3⟩ := connectDC_ok_of env (endsession env st a).state.conn flow.domain
        (Or.inl hconn2)
      exact ⟨(connectDC env (endsession env st a).state.conn flow.domain).events,
        endsession_events_shape env (endsession env st a).state a2 idx
          { flow with active := false } hfind3 hok3 hcd3⟩
  · intro st2 a2 hnone
    constructor
    · simp [endsession, hnone]
    · rfl

/-- C4 witness: one active flow for the student domain, ended with
`nextStageNeeded = false`. -/
theorem endsession_contract_witness :
    findWithIdx (fun s => s.id == "flow_" ++ "s1")
        [({ id := "flow_s1", domain := "student", active := true, createdAt := 0 } : FlowInfo)]
      = some (0, { id := "flow_s1", domain := "student", active := true, createdAt := 0 })
    ∧ ∃ pre, (endsession ⟨fun _ => true, fun _ _ => Except.ok ⟨[⟨"text", "done"⟩], false⟩, 0⟩
        ⟨[{ id := "flow_s1", domain := "student", active := true, createdAt := 0 }], some "student", 1,
          fun _ => true⟩
        ⟨"s1", "summary", 1, 1, false, none, none, none, none⟩).events =
        pre ++ [Event.call "student" "endsession"
          (endsessionFwdArgs ⟨"s1", "summary", 1, 1, false, none, none, none, none⟩)] := by
  refine ⟨by decide, ?_⟩
  exact (endsession_contract ⟨fun _ => true, fun _ _ => Except.ok ⟨[⟨"text", "done"⟩], false⟩, 0⟩
    ⟨[{ id := "flow_s1", domain := "student", active := true, createdAt := 0 }], some "student", 1,
      fun _ => true⟩
    ⟨"s1", "summary", 1, 1, false, none, none, none, none⟩ 0
    { id := "flow_s1", domain := "student", active := true, createdAt := 0 }
    (by decide) (Or.inl rfl)).1

/-- C5: with an active domain and no explicit sessionId, `loadcontext`
targets the FIRST Session-Table row (in insertion order, `List.find?`
semantics) whose domain equals the active domain and whose active flag is
true; when no such row exists the handler returns the structured
start-a-session-first error and leaves the Session Table — every row and
every field — untouched; when such a row exists and the domain is
reachable, exactly that first row is the one mutated. -/
theorem loadcontext_default_session (env : Env) (st : RouterState) (ad : String)
    (entityName : String) (entityType : Option String)
    (had : st.activeDomain = some ad) :
    (st.flows.find? (fun s => s.domain == ad && s.active) = none →
        loadcontext env st entityName entityType none = ⟨st, noFlowResult, []⟩
        ∧ noFlowResult.isError = true
        ∧ (loadcontext env st entityName entityType none).state.flows = st.flows)
    ∧ (∀ i f, findWithIdx (fun s => s.domain == ad && s.active) st.flows = some (i, f) →
        st.flows.find? (fun s => s.domain == ad && s.active) = some f
        ∧ ((st.conn ad = true ∨ env.connectOk ad = true) →
            (loadcontext env st entityName entityType none).state.flows
              = st.flows.set i { f with entityName := some entityName,
                                        entityType := some (entityType.getD "unknown") })) := by
  constructor
  · intro hnone
    have hfw : findWithIdx (fun s => s.domain == ad && s.active) st.flows = none := by
      have := findWithIdx_eq_find? (fun s => s.domain == ad && s.active) st.flows
      rw [hnone] at this
      exact Option.map_eq_none.mp this
    have heq : loadcontext env st entityName entityType none = ⟨st, noFlowResult, []⟩ := by
      simp [loadcontext, had, hfw]
    exact ⟨heq, rfl, by rw [heq]⟩
  · intro i f hfw
    have hfind : st.flows.find? (fun s => s.domain == ad && s.active) = some f := by
      have h1 := findWithIdx_eq_find? (fun s => s.domain == ad && s.active) st.flows
      rw [hfw, Option.map_some'] at h1
      exact h1.symm
    refine ⟨hfind, fun hconn => ?_⟩
    obtain ⟨hok, hcd2⟩ := connectDC_ok_of env st.conn ad hconn
    cases hr : env.rpc ad "loadcontext" with
    | ok r =>
      cases hct : r.content with
      | nil => simp [loadcontext, had, hfw, hok, dcCallTool, hcd2, hr, hct]
      | cons c0 rest => simp [loadcontext, had, hfw, hok, dcCallTool, hcd2, hr, hct]
    | error e => simp [loadcontext, had, hfw, hok, dcCallTool, hcd2, hr, callToolThrowResult]

/-- C5 witness: active domain student, empty Session Table. -/
theorem loadcontext_default_session_witness :
    (([] : List FlowInfo).find? (fun s => s.domain == "student" && s.active) = none)
    ∧ (loadcontext ⟨fun _ => true, fun _ _ => Except.ok ⟨[⟨"text", "ok"⟩], false⟩, 0⟩
        ⟨[], some "student", 0, fun _ => false⟩ "courseA" none none).result.isError = true := by
  refine ⟨rfl, ?_⟩
  have h := (loadcontext_default_session ⟨fun _ => true, fun _ _ => Except.ok ⟨[⟨"text", "ok"⟩], false⟩, 0⟩
    ⟨[], some "student", 0, fun _ => false⟩ "student" "courseA" none rfl).1 rfl
  rw [h.1]
  rfl

/-- C10: in the primary router, when the downstream `startsession` forward
returns an error-as-value result (isError set on the returned value), the
handler still appends a Session row whose id is `flow_` plus the last
space-separated token of the error text, and returns the error text in a
success-shaped response without the isError flag. -/
theorem startsession_error_value_flow (env : Env) (st : RouterState) (domain : String)
    (found : DomainInfo) (txt : String)
    (hf : findDomain domain = some found)
    (hconn : st.conn found.name = true ∨ env.connectOk found.name = true)
    (hr : env.rpc found.name "startsession" = Except.ok ⟨[⟨"text", txt⟩], true⟩) :
    (startsession env st domain).state.flows
      = st.flows ++ [⟨"flow_" ++ lastToken txt, found.name, none, none, true, env.now⟩]
    ∧ (startsession env st domain).result = ⟨[⟨"text", txt⟩], false⟩ := by
  obtain ⟨hok, hcd2⟩ := connectDC_ok_of env st.conn found.name hconn
  constructor
  · simp [startsession, hf, hok, dcCallTool, hcd2, hr]
  · simp [startsession, hf, hok, dcCallTool, hcd2, hr]

/-- Environment of the C10 witness: every downstream `startsession` call
returns an error-as-value result. -/
def env_w10 : Env :=
  ⟨fun _ => true, fun _ _ => Except.ok ⟨[⟨"text", "Error: no handler xyz"⟩], true⟩, 9⟩

/-- C10 witness: the downstream error text "Error: no handler xyz" yields
the flow id "flow_xyz" and a response without the error flag. -/
theorem startsession_error_value_flow_witness :
    env_w10.rpc "student" "startsession"
      = Except.ok ⟨[⟨"text", "Error: no handler xyz"⟩], true⟩
    ∧ (startsession env_w10 ⟨[], none, 0, fun _ => false⟩ "student").state.flows
      = [⟨"flow_" ++ lastToken "Error: no handler xyz", "student", none, none, true, 9⟩] := by
  refine ⟨rfl, ?_⟩
  have h := (startsession_error_value_flow env_w10 ⟨[], none, 0, fun _ => false⟩ "student"
    ⟨"student", "Educational context with entities like courses, assignments, and exams",
     ["course", "assignment", "exam", "note", "grade"]⟩
    "Error: no handler xyz" (by decide) (Or.inr rfl) rfl).1
  simpa using h

/-- C2 counterexample: in the primary router (src/main/index.ts), the
session identifier is `flow_` plus the last token of the domain server's
response text, NOT a counter-plus-domain-plus-timestamp value, and it is
not unique: two successful `startsession` calls whose downstream responses
end in the same token receive the SAME id, so the second id equals a
previously issued one. -/
theorem startsession_main_duplicate_ids :
    (let env : Env :=
      ⟨fun _ => true, fun _ _ => Except.ok ⟨[⟨"text", "Session started: abc"⟩], false⟩, 0⟩
     let st1 := (startsession env ⟨[], none, 0, fun _ => false⟩ "student").state
     let st2 := (startsession env st1 "student").state
     st1.flows.map (fun f => f.id) = ["flow_abc"]
     ∧ st2.flows.map (fun f => f.id) = ["flow_abc", "flow_abc"]
     ∧ (startsession env st1 "student").result.isError = false) := by decide

/-- C2 (amended): in the sessions-variant router (src/unnamed/part_002), a
successful `startsession` appends exactly one Session row carrying the
registry's canonical domain name, `active = true`, and the identifier
`cm_session_<domain>_<counter+1>_<timestamp>`; the bumped counter makes the
new identifier different from every previously issued one (any state whose
existing ids carry counter components at most the current counter — an
invariant this theorem shows is preserved). -/
theorem v2_startsession_unique_id (env : Env) (st : V2State) (domain : String)
    (found : DomainInfo)
    (hf : findDomain domain = some found)
    (hconn : st.conn found.name = true ∨ env.connectOk found.name = true)
    (hinv : ∀ s ∈ st.sessions, ∃ d c t, c ≤ st.sessionCounter ∧ s.id = mkCmSessionId d c t) :
    (v2Startsession env st domain).state.sessions
      = st.sessions ++ [⟨mkCmSessionId found.name (st.sessionCounter + 1) env.now,
          found.name, none, none, true, env.now⟩]
    ∧ (v2Startsession env st domain).state.sessionCounter = st.sessionCounter + 1
    ∧ mkCmSessionId found.name (st.sessionCounter + 1) env.now ∉
        st.sessions.map (fun s => s.id)
    ∧ ∀ s ∈ (v2Startsession env st domain).state.sessions,
        ∃ d c t, c ≤ (v2Startsession env st domain).state.sessionCounter
          ∧ s.id = mkCmSessionId d c t := by
  obtain ⟨hok, hcd2⟩ := connectDC_ok_of env st.conn found.name hconn
  have hsess : (v2Startsession env st domain).state.sessions
      = st.sessions ++ [⟨mkCmSessionId found.name (st.sessionCounter + 1) env.now,
          found.name, none, none, true, env.now⟩] := by
    cases hr : env.rpc found.name "startsession" with
    | ok r =>
      cases hct : r.content with
      | nil => simp [v2Startsession, hf, hok, dcCallTool, hcd2, hr, hct]
      | cons c0 rest => simp [v2Startsession, hf, hok, dcCallTool, hcd2, hr, hct]
    | error e => simp [v2Startsession, hf, hok, dcCallTool, hcd2, hr, callToolThrowResult]
  have hctr : (v2Startsession env st domain).state.sessionCounter = st.sessionCounter + 1 := by
    cases hr : env.rpc found.name "startsession" with
    | ok r =>
      cases hct : r.content with
      | nil => simp [v2Startsession, hf, hok, dcCallTool, hcd2, hr, hct]
      | cons c0 rest => simp [v2Startsession, hf, hok, dcCallTool, hcd2, hr, hct]
    | error e => simp [v2Startsession, hf, hok, dcCallTool, hcd2, hr, callToolThrowResult]
  have hnotmem : mkCmSessionId found.name (st.sessionCounter + 1) env.now ∉
      st.sessions.map (fun s => s.id) := by
    intro hmem
    rw [List.mem_map] at hmem
    obtain ⟨s, hs, hid⟩ := hmem
    obtain ⟨d, c, t, hc, hidS⟩ := hinv s hs
    rw [hidS] at hid
    have hcc := mkCmSessionId_inj_counter hid
    omega
  refine ⟨hsess, hctr, hnotmem, ?_⟩
  intro s hs
  rw [hsess] at hs
  rw [hctr]
  rcases List.mem_append.mp hs with hs | hs
  · obtain ⟨d, c, t, hc, hid⟩ := hinv s hs
    exact ⟨d, c, t, by omega, hid⟩
  · rw [List.mem_singleton] at hs
    subst hs
    exact ⟨found.name, st.sessionCounter + 1, env.now, le_refl _, rfl⟩

/-- C2 witness: a first session for the student domain at timestamp 77. -/
theorem v2_startsession_unique_id_witness :
    findDomain "student" = some ⟨"student",
      "Educational context with entities like courses, assignments, and exams",
      ["course", "assignment", "exam", "note", "grade"]⟩
    ∧ (v2Startsession ⟨fun _ => true, fun _ _ => Except.ok ⟨[⟨"text", "ok"⟩], false⟩, 77⟩
        ⟨[], none, 0, fun _ => false⟩ "student").state.sessions
      = [⟨mkCmSessionId "student" 1 77, "student", none, none, true, 77⟩] := by
  refine ⟨by decide, ?_⟩
  have h := (v2_startsession_unique_id
    ⟨fun _ => true, fun _ _ => Except.ok ⟨[⟨"text", "ok"⟩], false⟩, 77⟩
    ⟨[], none, 0, fun _ => false⟩ "student"
    ⟨"student", "Educational context with entities like courses, assignments, and exams",
     ["course", "assignment", "exam", "note", "grade"]⟩
    (by decide) (Or.inr rfl) (by simp)).1
  simpa using h

/-- C6: with both domains in the registry, if both connections are
reachable then `relateCrossDomain` issues exactly two downstream
`buildcontext` observation appends — first to the source domain on the
source entity with the text "Related to <toEntity> (<toDomain> domain) via
<relationType>", then to the target domain on the target entity with
"Related from <fromEntity> (<fromDomain> domain) via <relationType>" — and
succeeds; if the source connect fails, or the source is reachable but the
target connect fails, the call returns an error and NO observation is
written to either domain (both connects precede any write). -/
theorem relateCrossDomain_contract (env : Env) (st : RouterState)
    (fromDomain fromEntity toDomain toEntity relationType : String)
    (fromInfo toInfo : DomainInfo)
    (hfrom : findDomain fromDomain = some fromInfo)
    (hto : findDomain toDomain = some toInfo) :
    ((st.conn fromInfo.name = true ∨ env.connectOk fromInfo.name = true) →
      (st.conn toInfo.name = true ∨ env.connectOk toInfo.name = true) →
        (relateCrossDomain env st fromDomain fromEntity toDomain toEntity relationType).events.filter
            isCallEv =
          [Event.call fromInfo.name "buildcontext" (DownArgs.obsArgs
              [⟨fromEntity, [relateToText toEntity toInfo.name relationType]⟩]),
           Event.call toInfo.name "buildcontext" (DownArgs.obsArgs
              [⟨toEntity, [relateFromText fromEntity fromInfo.name relationType]⟩])]
        ∧ (relateCrossDomain env st fromDomain fromEntity toDomain toEntity relationType).result.isError
            = false)
    ∧ (st.conn fromInfo.name = false → env.connectOk fromInfo.name = false →
        (relateCrossDomain env st fromDomain fromEntity toDomain toEntity relationType).result.isError
          = true
        ∧ (relateCrossDomain env st fromDomain fromEntity toDomain toEntity relationType).events.filter
            isCallEv = [])
    ∧ ((st.conn fromInfo.name = true ∨ env.connectOk fromInfo.name = true) →
        toInfo.name ≠ fromInfo.name →
        st.conn toInfo.name = false → env.connectOk toInfo.name = false →
        (relateCrossDomain env st fromDomain fromEntity toDomain toEntity relationType).result.isError
          = true
        ∧ (relateCrossDomain env st fromDomain fromEntity toDomain toEntity relationType).events.filter
            isCallEv = []) := by
  refine ⟨?_, ?_, ?_⟩
  · intro h1 h2
    obtain ⟨hok1, hc1⟩ := connectDC_ok_of env st.conn fromInfo.name h1
    have h2c : (connectDC env st.conn fromInfo.name).conn toInfo.name = true ∨
        env.connectOk toInfo.name = true := by
      by_cases heq : toInfo.name = fromInfo.name
      · exact Or.inl (heq ▸ hc1)
      · rcases h2 with h2 | h2
        · exact Or.inl ((connectDC_conn_other env st.conn fromInfo.name toInfo.name heq).trans h2)
        · exact Or.inr h2
    obtain ⟨hok2, hc2⟩ := connectDC_ok_of env (connectDC env st.conn fromInfo.name).conn
      toInfo.name h2c
    have hc2from : (connectDC env (connectDC env st.conn fromInfo.name).conn toInfo.name).conn
        fromInfo.name = true :=
      connectDC_ok_conn_mono env (connectDC env st.conn fromInfo.name).conn toInfo.name
        fromInfo.name hok2 hc1
    cases hr1 : env.rpc fromInfo.name "buildcontext" with
    | ok r1 =>
      cases hr2 : env.rpc toInfo.name "buildcontext" with
      | ok r2 =>
        constructor
        · simp [relateCrossDomain, hfrom, hto, hok1, hok2, dcCallTool, hc2from, hc2, hr1, hr2,
            List.filter_append, connectDC_call_filter, isCallEv]
        · simp [relateCrossDomain, hfrom, hto, hok1, hok2, dcCallTool, hc2from, hc2, hr1, hr2]
      | error e2 =>
        constructor
        · simp [relateCrossDomain, hfrom, hto, hok1, hok2, dcCallTool, hc2from, hc2, hr1, hr2,
            List.filter_append, connectDC_call_filter, isCallEv]
        · simp [relateCrossDomain, hfrom, hto, hok1, hok2, dcCallTool, hc2from, hc2, hr1, hr2]
    | error e1 =>
      cases hr2 : env.rpc toInfo.name "buildcontext" with
      | ok r2 =>
        constructor
        · simp [relateCrossDomain, hfrom, hto, hok1, hok2, dcCallTool, hc2from, hc2, hr1, hr2,
            List.filter_append, connectDC_call_filter, isCallEv]
        · simp [relateCrossDomain, hfrom, hto, hok1, hok2, dcCallTool, hc2from, hc2, hr1, hr2]
      | error e2 =>
        constructor
        · simp [relateCrossDomain, hfrom, hto, hok1, hok2, dcCallTool, hc2from, hc2, hr1, hr2,
            List.filter_append, connectDC_call_filter, isCallEv]
        · simp [relateCrossDomain, hfrom, hto, hok1, hok2, dcCallTool, hc2from, hc2, hr1, hr2]
  · intro h1 h2
    have hfail : (connectDC env st.conn fromInfo.name).ok = false :=
      connectDC_fail env st.conn fromInfo.name h1 h2
    constructor
    · simp [relateCrossDomain, hfrom, hto, hfail, connectFailResult]
    · simp [relateCrossDomain, hfrom, hto, hfail, connectDC_call_filter]
  · intro h1 hne h2a h2b
    obtain ⟨hok1, hc1⟩ := connectDC_ok_of env st.conn fromInfo.name h1
    have hfail2 : (connectDC env (connectDC env st.conn fromInfo.name).conn toInfo.name).ok
        = false :=
      connectDC_fail env (connectDC env st.conn fromInfo.name).conn toInfo.name
        ((connectDC_conn_other env st.conn fromInfo.name toInfo.name hne).trans h2a) h2b
    constructor
    · simp [relateCrossDomain, hfrom, hto, hok1, hfail2, connectFailResult]
    · simp [relateCrossDomain, hfrom, hto, hok1, hfail2, List.filter_append,
        connectDC_call_filter]

/-- C6 witness: developer A --manages--> project B with both domains
reachable, matching the spec's worked example. -/
theorem relateCrossDomain_contract_witness :
    findDomain "developer" = some ⟨"developer",
      "Software development context with entities like projects, components, and tasks",
      ["project", "component", "task", "issue", "commit"]⟩
    ∧ (relateCrossDomain ⟨fun _ => true, fun _ _ => Except.ok ⟨[⟨"text", "ok"⟩], false⟩, 0⟩
        ⟨[], none, 0, fun _ => true⟩ "developer" "A" "project" "B" "manages").events.filter
        isCallEv =
      [Event.call "developer" "buildcontext" (DownArgs.obsArgs
          [⟨"A", ["Related to B (project domain) via manages"]⟩]),
       Event.call "project" "buildcontext" (DownArgs.obsArgs
          [⟨"B", ["Related from A (developer domain) via manages"]⟩])] := by
  refine ⟨by decide, ?_⟩
  have h := (relateCrossDomain_contract ⟨fun _ => true, fun _ _ => Except.ok ⟨[⟨"text", "ok"⟩], false⟩, 0⟩
    ⟨[], none, 0, fun _ => true⟩ "developer" "A" "project" "B" "manages"
    ⟨"developer",
     "Software development context with entities like projects, components, and tasks",
     ["project", "component", "task", "issue", "commit"]⟩
    ⟨"project",
     "Project management context with entities like projects, tasks, and resources",
     ["project", "task", "resource", "milestone", "risk"]⟩
    (by decide) (by decide)).1 (Or.inl rfl) (Or.inl rfl)
  simpa [relateToText, relateFromText] using h.1

/-- C7 evaluation: with the active domain "developer" connected and a
domain server that lacks the `listAllEntities` tool (the underlying RPC
throws "Tool not found"), the router returns the error-as-value produced by
`DomainClient.callTool` — isError set — and NOT the registry entity-type
fallback text, because the handler's catch-based fallback is unreachable:
`DomainClient.callTool` never throws. -/
theorem listAllEntities_returns_error_not_fallback :
    (let env : Env := ⟨fun _ => true, fun _ _ => Except.error "Tool not found", 5⟩
     let st : V2State := ⟨[], some "developer", 0, fun d => d == "developer"⟩
     (v2ListAllEntities env st).result
        = callToolThrowResult "listAllEntities" "developer" "Tool not found"
     ∧ (v2ListAllEntities env st).result.isError = true
     ∧ entityTypesFallbackText "developer" ⟨"developer",
          "Software development context with entities like projects, components, and tasks",
          ["project", "component", "task", "issue", "commit"]⟩
        = "Available entity types in developer domain: project, component, task, issue, commit"
     ∧ (v2ListAllEntities env st).result.content ≠
        [⟨"text",
          "Available entity types in developer domain: project, component, task, issue, commit"⟩]) := by
  decide

lemma setActiveDomain_flows (env : Env) (st : RouterState) (d : String) :
    (setActiveDomain env st d).state.flows = st.flows := by
  unfold setActiveDomain
  cases hf : findDomain d with
  | none => rfl
  | some found =>
    simp only []
    split <;> rfl

lemma startsession_flows (env : Env) (st : RouterState) (d : String) :
    ∃ t, (startsession env st d).state.flows = st.flows ++ t := by
  unfold startsession
  cases hf : findDomain d with
  | none => exact ⟨[], by simp⟩
  | some found =>
    simp only []
    split
    · split
      · exact ⟨[], by simp⟩
      · exact ⟨_, rfl⟩
    · exact ⟨[], by simp⟩

lemma forwardTool_flows (env : Env) (st : RouterState) (tool : String) (args : DownArgs) :
    (forwardTool env st tool args).state.flows = st.flows := by
  unfold forwardTool
  cases had : st.activeDomain with
  | none => rfl
  | some ad =>
    simp only []
    split <;> rfl

lemma rows_endsession (env : Env) (st : RouterState) (a : EndArgs) :
    rowsPreserved st.flows (endsession env st a).state.flows := by
  unfold endsession
  simp only []
  cases hfind : findWithIdx (fun s => s.id == "flow_" ++ a.sessionId) st.flows with
  | none => exact rowsPreserved_refl _
  | some q =>
    obtain ⟨idx, flow⟩ := q
    simp only []
    split
    · split
      · split <;> exact rowsPreserved_refl _
      · split <;> exact rowsPreserved_deactivateAt _ _
    · exact rowsPreserved_refl _

lemma rows_loadcontext (env : Env) (st : RouterState) (en : String) (et : Option String)
    (sid : Option String) :
    rowsPreserved st.flows (loadcontext env st en et sid).state.flows := by
  unfold loadcontext
  cases had : st.activeDomain with
  | none => exact rowsPreserved_refl _
  | some ad =>
    simp only []
    cases sid with
    | some s =>
      simp only []
      cases htgt : findWithIdx (fun f => f.id == "flow_" ++ s) st.flows with
      | none => exact rowsPreserved_refl _
      | some q =>
        obtain ⟨idx, flow⟩ := q
        obtain ⟨hget, hp⟩ := findWithIdx_get? htgt
        simp only []
        split
        · split <;> exact rowsPreserved_set _ hget ⟨rfl, rfl, rfl⟩
        · exact rowsPreserved_refl _
    | none =>
      simp only []
      cases htgt : findWithIdx (fun f => f.domain == ad && f.active) st.flows with
      | none => exact rowsPreserved_refl _
      | some q =>
        obtain ⟨idx, flow⟩ := q
        obtain ⟨hget, hp⟩ := findWithIdx_get? htgt
        simp only []
        split
        · split <;> exact rowsPreserved_set _ hget ⟨rfl, rfl, rfl⟩
        · exact rowsPreserved_refl _

lemma relateCrossDomain_flows (env : Env) (st : RouterState)
    (fd fe td te rt : String) :
    (relateCrossDomain env st fd fe td te rt).state.flows = st.flows := by
  unfold relateCrossDomain
  cases hf : findDomain fd with
  | none => rfl
  | some fromInfo =>
    simp only []
    cases ht : findDomain td with
    | none => rfl
    | some toInfo =>
      simp only []
      split
      · split <;> rfl
      · rfl

/-- C9: every router operation preserves the Session Table's rows: no row
is ever removed (the old table is a prefix-length-wise subtable of the new
one) and each existing row keeps its id, its owning domain and its creation
time — only entityName, entityType and the active flag are ever mutated. -/
theorem router_rows_preserved (env : Env) (st : RouterState) (op : RouterOp) :
    rowsPreserved st.flows (step env st op).state.flows := by
  cases op with
  | setActiveDomainOp d =>
    rw [step, setActiveDomain_flows]
    exact rowsPreserved_refl _
  | startsessionOp d =>
    obtain ⟨t, ht⟩ := startsession_flows env st d
    rw [step, ht]
    exact rowsPreserved_append _ _
  | endsessionOp a => exact rows_endsession env st a
  | buildcontextOp ty dt =>
    rw [step, buildcontext, forwardTool_flows]
    exact rowsPreserved_refl _
  | deletecontextOp ty dt =>
    rw [step, deletecontext, forwardTool_flows]
    exact rowsPreserved_refl _
  | loadcontextOp en et sid => exact rows_loadcontext env st en et sid
  | advancedcontextOp ty dt =>
    rw [step, advancedcontext, forwardTool_flows]
    exact rowsPreserved_refl _
  | relateCrossDomainOp fd fe td te rt =>
    rw [step, relateCrossDomain_flows]
    exact rowsPreserved_refl _
